import Mathlib

/-!
Verification of the Fokus browser extension's blocklist sync/merge and
rule-compilation logic against its specification.

The definitions below are shallow embeddings of the JavaScript source:

* `Blocklist`, `jsSetDedup`, `mergeBlocklists`, `resolveBlocklistConflicts`
  embed `SyncService.resolveBlocklistConflicts`
  (src/js/services/stripeService.js, lines 1009-1060).
* `CompiledRule`, `compileRules` embed the rule-building loop of
  `BackgroundService.applyBlockingRules` (src/js/background.js, lines 462-499;
  the identical loop appears in `applySimpleBlockingRules`,
  src/unnamed/part_001, lines 614-658).
* `normalizeDomain`, `addDomain` embed `BackgroundService.addDomain`
  (src/js/background.js, lines 329-365; same normalization in
  src/unnamed/part_001, lines 701-727).
* `hostOf`, `stripWww`, `checkUrlBlocked` embed
  `BackgroundService.checkUrlBlocked` (src/js/background.js, lines 550-594;
  identical fallback in src/unnamed/part_001, lines 799-845).
* `addKeyword` embeds `BackgroundService.addKeyword`
  (src/unnamed/part_001, lines 663-686).
* `SyncState`, `SyncEnv`, `syncNow` embed `SyncService.syncNow`
  (src/js/services/stripeService.js, lines 875-962); the asynchronous
  environment (network status, authenticated user, queue/sub-sync outcomes)
  is passed as an explicit oracle, and the I/O the call performs is recorded
  as an explicit effect trace.
-/

namespace Fokus

/-! ### Configuration constants (src/js/config.js) -/

/-- CONFIG.SYNC.CONFLICT_RESOLUTION (config.js line 80). -/
def CONFLICT_RESOLUTION : String := "server_wins"

/-- CONFIG.SYNC.RETRY_ATTEMPTS (config.js line 77); `this.maxRetries` of SyncService. -/
def RETRY_ATTEMPTS : Nat := 3

/-- CONFIG.SYNC.RETRY_DELAY in milliseconds (config.js line 78). -/
def RETRY_DELAY : Nat := 1000

/-- CONFIG.BLOCKING.MAX_RULES (config.js line 106). -/
def MAX_RULES : Nat := 30000

/-- CONFIG.SUBSCRIPTION.FREE.KEYWORD_LIMIT (config.js line 55). -/
def FREE_KEYWORD_LIMIT : Int := 15

/-! ### Data model -/

/-- A user's blocklist record. The three list fields are the ones the merge
engine and rule compiler operate on; `is_active` and `updated_at` stand for
the remaining metadata carried by the remote record. -/
structure Blocklist where
  keywords : List String
  domains : List String
  github_urls : List String
  is_active : Bool := true
  updated_at : String := ""
deriving Repr, DecidableEq

/-- JS `[...new Set(xs)]`: iterate `xs` in order, keeping the first
occurrence of each element. -/
def jsSetDedup (l : List String) : List String :=
  l.foldl (fun acc x => if x ∈ acc then acc else acc ++ [x]) []

/-! ### Blocklist merge engine (SyncService.resolveBlocklistConflicts) -/

/-- Result record of `resolveBlocklistConflicts`. In the both-absent branch
the JS object carries no `localChanges` property; reading it yields
`undefined`, which is falsy, so it is embedded as `false`. -/
structure ResolveResult where
  hasChanges : Bool
  localChanges : Bool
  merged : Option Blocklist
deriving Repr, DecidableEq

/-- The merge-strategy combination step (stripeService.js lines 1043-1048):
spread of `remote` with each list field replaced by the de-duplicated
concatenation `[...new Set([...local.f, ...remote.f])]`. -/
def mergeBlocklists (l r : Blocklist) : Blocklist :=
  { r with
    keywords := jsSetDedup (l.keywords ++ r.keywords)
    domains := jsSetDedup (l.domains ++ r.domains)
    github_urls := jsSetDedup (l.github_urls ++ r.github_urls) }

/-- `SyncService.resolveBlocklistConflicts(local, remote)`
(stripeService.js lines 1009-1060). The branch on
`CONFIG.SYNC.CONFLICT_RESOLUTION` is exposed as the `strategy` argument;
the shipped configuration value is `CONFLICT_RESOLUTION`.
`JSON.stringify(local) !== JSON.stringify(merged)` is embedded as structural
inequality of the records, which coincides with comparison of the
serialized forms for records with these fields (field order is fixed, and
array serialization is order-sensitive). -/
def resolveBlocklistConflicts (strategy : String) (loc rem : Option Blocklist) :
    ResolveResult :=
  match loc, rem with
  | none, none => { hasChanges := false, localChanges := false, merged := none }
  | none, some r => { hasChanges := true, localChanges := false, merged := some r }
  | some l, none => { hasChanges := true, localChanges := true, merged := some l }
  | some l, some r =>
    let mp : Blocklist × Bool :=
      if strategy = "server_wins" then (r, false)
      else if strategy = "client_wins" then (l, true)
      else
        let m := mergeBlocklists l r
        (m, decide (r.keywords.length < m.keywords.length) ||
            decide (r.domains.length < m.domains.length) ||
            decide (r.github_urls.length < m.github_urls.length))
    { hasChanges := decide (l ≠ mp.1), localChanges := mp.2, merged := some mp.1 }

/-! ### String primitives

JS string operations, embedded over the character list underlying a Lean
`String` (code points; identical to the JS behavior on the ASCII data these
functions process). -/

/-- `s.toLowerCase()`. -/
def lowerStr (s : String) : String := ⟨s.data.map Char.toLower⟩

/-- `s.slice(n)` (drop the first `n` characters). -/
def dropStr (s : String) (n : Nat) : String := ⟨s.data.drop n⟩

/-- Longest prefix of `s` whose characters satisfy `p`. -/
def takeWhileStr (s : String) (p : Char → Bool) : String := ⟨s.data.takeWhile p⟩

/-- `s.startsWith(pre)`. -/
def startsWithStr (s pre : String) : Bool := pre.data.isPrefixOf s.data

/-- Whether `pat` occurs as a contiguous subsequence of `s`. -/
def listHasSub : List Char → List Char → Bool
  | pat, [] => pat.isEmpty
  | pat, c :: rest => pat.isPrefixOf (c :: rest) || listHasSub pat rest

/-- JS `s.includes(pat)` (true for the empty pattern). -/
def strIncludes (s pat : String) : Bool := listHasSub pat.data s.data

/-! ### Rule compiler (BackgroundService.applyBlockingRules) -/

/-- One declarativeNetRequest redirect rule as built by the loop in
`applyBlockingRules`. The `chrome.runtime.getURL` prefix and the
percent-encoding of the query value are elided from `redirectUrl`; the
fields relevant to the verified claims (`id`, `priority`, `urlFilter`,
`resourceTypes`) are embedded verbatim. -/
structure CompiledRule where
  id : Nat
  priority : Nat
  redirectUrl : String
  urlFilter : String
  resourceTypes : List String
deriving Repr, DecidableEq

/-- The rule-building loop of `applyBlockingRules` (background.js lines
466-490): one rule per entry of `domains`, with `id` counting up from 1.
The JS guard `blocklist.domains && blocklist.domains.length > 0` is the
identity on the embedded total list field (an absent or empty `domains`
produces no rules either way). No ceiling on the number of rules is
checked anywhere in the function. -/
def compileRules (bl : Blocklist) : List CompiledRule :=
  bl.domains.enum.map fun p =>
    { id := p.1 + 1
      priority := 1
      redirectUrl := "blocked.html?reason=Domain blocked: " ++ p.2
      urlFilter := "||" ++ p.2 ++ "^"
      resourceTypes := ["main_frame"] }

/-! ### Navigation gatekeeper (BackgroundService.checkUrlBlocked) -/

/-- `new URL(url).hostname` for http(s) URLs: drop the scheme, take the
host up to the first `/`, `:`, `?` or `#`, lowercased (the URL parser
lowercases the host). -/
def hostOf (url : String) : String :=
  let rest :=
    if startsWithStr url "https://" then dropStr url 8
    else if startsWithStr url "http://" then dropStr url 7
    else url
  lowerStr (takeWhileStr rest fun c => c != '/' && c != ':' && c != '?' && c != '#')

/-- `hostname.replace(/^www\./, '')`. -/
def stripWww (h : String) : String :=
  if startsWithStr h "www." then dropStr h 4 else h

/-- Block decision returned by `checkUrlBlocked`; the JS `type` property is
embedded as `btype`. -/
structure BlockDecision where
  blocked : Bool
  btype : String
  source : String
  reason : String
deriving Repr, DecidableEq

/-- `BackgroundService.checkUrlBlocked(url)` (background.js lines 550-594),
evaluated against a given blocklist: normalize the host
(`urlObj.hostname.replace(/^www\./, '').toLowerCase()`), test exact
membership in `domains`, then scan `keywords` for a case-insensitive
substring of the full URL, returning the first hit; `null` becomes `none`. -/
def checkUrlBlocked (bl : Blocklist) (url : String) : Option BlockDecision :=
  let domain := lowerStr (stripWww (hostOf url))
  if domain ∈ bl.domains then
    some { blocked := true, btype := "domain", source := domain
           reason := "The domain \"" ++ domain ++ "\" is blocked" }
  else
    match bl.keywords.find? (fun kw => strIncludes (lowerStr url) (lowerStr kw)) with
    | some kw =>
      some { blocked := true, btype := "keyword", source := kw
             reason := "URL contains blocked keyword: \"" ++ kw ++ "\"" }
    | none => none

/-! ### Domain / keyword mutation (BackgroundService.addDomain, addKeyword) -/

/-- `domain.replace(/^(https?:\/\/)?(www\.)?/, '').toLowerCase()`
(background.js line 342): the regex match is case-sensitive and runs
before the lowercasing, so only lowercase scheme and `www.` spellings are
stripped. -/
def normalizeDomain (d : String) : String :=
  let s1 :=
    if startsWithStr d "https://" then dropStr d 8
    else if startsWithStr d "http://" then dropStr d 7
    else d
  let s2 := if startsWithStr s1 "www." then dropStr s1 4 else s1
  lowerStr s2

/-- The blocklist mutation performed by `BackgroundService.addDomain`
(background.js lines 339-351): normalize, return the list unchanged when
the normalized domain is already present, otherwise push it. (The
src/unnamed/part_001 variant additionally enforces a free-tier domain
limit before the push; the normalization and duplicate check are
identical.) -/
def addDomain (bl : Blocklist) (d : String) : Blocklist :=
  let nd := normalizeDomain d
  if nd ∈ bl.domains then bl
  else { bl with domains := bl.domains ++ [nd] }

/-- The authenticated user as seen by `addKeyword`:
`user?.user_metadata?.subscription_tier`. -/
structure User where
  subscription_tier : Option String
deriving Repr, DecidableEq

/-- `user?.user_metadata?.subscription_tier === 'premium'`. -/
def isPremiumUser (u : Option User) : Bool :=
  match u with
  | some usr => usr.subscription_tier = some "premium"
  | none => false

/-- The keyword limit selected by `addKeyword` (part_001 lines 675-677):
`-1` (unlimited) for a premium user, `CONFIG.SUBSCRIPTION.FREE.KEYWORD_LIMIT`
otherwise. -/
def keywordLimit (u : Option User) : Int :=
  if isPremiumUser u then -1 else FREE_KEYWORD_LIMIT

/-- `BackgroundService.addKeyword(keyword)` (src/unnamed/part_001 lines
663-686): duplicate keywords return success without modification; then
`if (limit > 0 && blocklist.keywords.length >= limit) throw ...`; otherwise
the keyword is pushed. The thrown `Error` is embedded as `Except.error`. -/
def addKeyword (u : Option User) (bl : Blocklist) (kw : String) :
    Except String Blocklist :=
  if kw ∈ bl.keywords then .ok bl
  else
    let limit := keywordLimit u
    if 0 < limit ∧ limit ≤ (bl.keywords.length : Int) then
      .error "Free tier limited to 15 keywords. Upgrade to Premium for unlimited keywords."
    else
      .ok { bl with keywords := bl.keywords ++ [kw] }

/-! ### Sync scheduler (SyncService.syncNow) -/

/-- The mutable fields of SyncService touched by `syncNow`. -/
structure SyncState where
  syncInProgress : Bool
  lastSyncTime : Option Nat
  retryCount : Nat
deriving Repr, DecidableEq

/-- Oracle for the asynchronous environment one `syncNow` call observes:
network status, the result of `getCurrentUser()`, whether
`processSyncQueue()` throws, the settled status of each of the four
`Promise.allSettled` sub-syncs, and the wall-clock time recorded into
`lastSyncTime`. -/
structure SyncEnv where
  isOnline : Bool
  currentUser : Option String
  queueThrows : Bool
  blocklistOk : Bool
  statsOk : Bool
  settingsOk : Bool
  devicesOk : Bool
  now : Nat
deriving Repr, DecidableEq

/-- Externally visible actions a `syncNow` call performs, in order. -/
inductive SyncEffect where
  | fetchCurrentUser
  | drainQueue
  | runSubSyncs
  | scheduleRetry (delayMs : Nat)
deriving Repr, DecidableEq

/-- The value `syncNow` resolves with. -/
structure SyncOutcome where
  success : Bool
  message : Option String
  errors : Option Nat
  errorMsg : Option String
deriving Repr, DecidableEq

/-- Number of rejected promises among the four sub-syncs
(`results.filter(r => r.status === 'rejected').length`). -/
def failedSubSyncs (env : SyncEnv) : Nat :=
  (if env.blocklistOk then 0 else 1) + (if env.statsOk then 0 else 1) +
    (if env.settingsOk then 0 else 1) + (if env.devicesOk then 0 else 1)

/-- `SyncService.syncNow()` (stripeService.js lines 875-962) as a step
function: given the current service state and the environment oracle, it
returns the resolved value, the service state after the call (the
`finally` block clears `syncInProgress`, so the flag is false on every
path that set it), and the trace of performed effects. A rejected sub-sync
only contributes to the `errors` count; `lastSyncTime` is still recorded,
`retryCount` is reset and no retry is scheduled. Only an exception escaping
the `try` body (embedded: `processSyncQueue` throwing) takes the
retry/backoff path, scheduling a retry after
`RETRY_DELAY * 2 ^ (retryCount - 1)` while `retryCount < maxRetries`. -/
def syncNow (st : SyncState) (env : SyncEnv) :
    SyncOutcome × SyncState × List SyncEffect :=
  if st.syncInProgress then
    ({ success := false, message := some "Sync already in progress"
       errors := none, errorMsg := none }, st, [])
  else if !env.isOnline then
    ({ success := false, message := some "Offline"
       errors := none, errorMsg := none }, st, [])
  else
    match env.currentUser with
    | none =>
      ({ success := false, message := some "Not authenticated"
         errors := none, errorMsg := none },
       { st with syncInProgress := false }, [.fetchCurrentUser])
    | some _ =>
      if env.queueThrows then
        let rc := st.retryCount + 1
        ({ success := false, message := none, errors := none
           errorMsg := some "sync queue failure" },
         { st with syncInProgress := false, retryCount := rc },
         [SyncEffect.fetchCurrentUser, .drainQueue] ++
           (if rc < RETRY_ATTEMPTS then
             [SyncEffect.scheduleRetry (RETRY_DELAY * 2 ^ (rc - 1))] else []))
      else
        ({ success := true, message := none
           errors := some (failedSubSyncs env), errorMsg := none },
         { syncInProgress := false, lastSyncTime := some env.now, retryCount := 0 },
         [SyncEffect.fetchCurrentUser, .drainQueue, .runSubSyncs])

/-! ### Helper lemmas -/

/-- Membership in the dedup fold, generalized over the accumulator. -/
theorem mem_jsSetDedup_foldl (l acc : List String) (x : String) :
    x ∈ l.foldl (fun a y => if y ∈ a then a else a ++ [y]) acc ↔ x ∈ acc ∨ x ∈ l := by
  induction l generalizing acc with
  | nil => simp
  | cons y ys ih =>
    simp only [List.foldl_cons]
    by_cases hy : y ∈ acc
    · rw [if_pos hy, ih]
      constructor
      · rintro (h | h)
        · exact Or.inl h
        · exact Or.inr (List.mem_cons_of_mem _ h)
      · rintro (h | h)
        · exact Or.inl h
        · rcases List.mem_cons.mp h with rfl | h
          · exact Or.inl hy
          · exact Or.inr h
    · rw [if_neg hy, ih]
      simp only [List.mem_append, List.mem_singleton, List.mem_cons]
      tauto

/-- An element is in the JS set-dedup of a list iff it is in the list. -/
theorem mem_jsSetDedup {x : String} {l : List String} :
    x ∈ jsSetDedup l ↔ x ∈ l := by
  simpa [jsSetDedup] using mem_jsSetDedup_foldl l [] x

/-- The dedup fold preserves freedom from duplicates of the accumulator. -/
theorem nodup_jsSetDedup_foldl (l acc : List String) (h : acc.Nodup) :
    (l.foldl (fun a y => if y ∈ a then a else a ++ [y]) acc).Nodup := by
  induction l generalizing acc with
  | nil => simpa
  | cons y ys ih =>
    simp only [List.foldl_cons]
    by_cases hy : y ∈ acc
    · rw [if_pos hy]; exact ih _ h
    · rw [if_neg hy]
      refine ih _ ?_
      simp [List.nodup_append, h, hy]

/-- The JS set-dedup of a list has no duplicates. -/
theorem nodup_jsSetDedup (l : List String) : (jsSetDedup l).Nodup :=
  nodup_jsSetDedup_foldl l [] List.nodup_nil

/-- Deduplication does not change the underlying finite set. -/
theorem toFinset_jsSetDedup (l : List String) :
    (jsSetDedup l).toFinset = l.toFinset := by
  ext x
  simp [List.mem_toFinset, mem_jsSetDedup]

/-- The length of the JS set-dedup is the number of distinct elements. -/
theorem length_jsSetDedup (l : List String) :
    (jsSetDedup l).length = l.toFinset.card := by
  rw [← toFinset_jsSetDedup, List.toFinset_card_of_nodup (nodup_jsSetDedup l)]

/-- For a duplicate-free `b`, the deduplicated concatenation `a ++ b` is
strictly longer than `b` iff `a` contributes an element missing from `b`. -/
theorem length_dedup_append_lt_iff {a b : List String} (hb : b.Nodup) :
    b.length < (jsSetDedup (a ++ b)).length ↔ ∃ x ∈ a, x ∉ b := by
  rw [length_jsSetDedup, List.toFinset_append,
    show b.length = b.toFinset.card from (List.toFinset_card_of_nodup hb).symm]
  constructor
  · intro h
    by_contra hc
    push_neg at hc
    have hsub : a.toFinset ∪ b.toFinset ⊆ b.toFinset := by
      intro x hx
      rcases Finset.mem_union.mp hx with hx | hx
      · exact List.mem_toFinset.mpr (hc x (List.mem_toFinset.mp hx))
      · exact hx
    exact absurd h (not_lt.mpr (Finset.card_le_card hsub))
  · rintro ⟨x, hxa, hxb⟩
    have hle : b.toFinset.card ≤ (a.toFinset ∪ b.toFinset).card :=
      Finset.card_le_card Finset.subset_union_right
    rcases lt_or_eq_of_le hle with h | h
    · exact h
    · exfalso
      have heq : b.toFinset = a.toFinset ∪ b.toFinset :=
        Finset.eq_of_subset_of_card_le Finset.subset_union_right (le_of_eq h.symm)
      have : x ∈ b.toFinset := by
        rw [heq]
        exact Finset.mem_union_left _ (List.mem_toFinset.mpr hxa)
      exact hxb (List.mem_toFinset.mp this)

/-- The compiler emits exactly one rule per domain entry. -/
theorem compileRules_length (bl : Blocklist) :
    (compileRules bl).length = bl.domains.length := by
  simp [compileRules]

/-- The emitted rule ids are `1, 2, ..., domains.length` in order. -/
theorem compileRules_ids (bl : Blocklist) :
    (compileRules bl).map (fun r => r.id) =
      (List.range bl.domains.length).map (· + 1) := by
  simp only [compileRules, List.map_map]
  rw [show ((fun r : CompiledRule => r.id) ∘ fun p : Nat × String =>
      ({ id := p.1 + 1, priority := 1,
         redirectUrl := "blocked.html?reason=Domain blocked: " ++ p.2,
         urlFilter := "||" ++ p.2 ++ "^",
         resourceTypes := ["main_frame"] } : CompiledRule)) =
      ((· + 1) ∘ Prod.fst) from rfl]
  rw [← List.map_map, List.enum_map_fst]

/-- The emitted rule ids are pairwise distinct. -/
theorem compileRules_ids_nodup (bl : Blocklist) :
    ((compileRules bl).map (fun r => r.id)).Nodup := by
  rw [compileRules_ids]
  exact (List.nodup_range _).map (fun a b h => by omega)

/-! ### Claim theorems -/

/-- C1: for every pair of blocklists merged under strategy `merge`, each of
the merged result's `domains`, `keywords` and `github_urls` fields is a
superset of the corresponding field of both the local and the remote
input — no entry from either side is lost. -/
theorem claim_C1_merge_superset (l r : Blocklist) :
    ∃ m : Blocklist,
      (resolveBlocklistConflicts "merge" (some l) (some r)).merged = some m ∧
      l.domains ⊆ m.domains ∧ r.domains ⊆ m.domains ∧
      l.keywords ⊆ m.keywords ∧ r.keywords ⊆ m.keywords ∧
      l.github_urls ⊆ m.github_urls ∧ r.github_urls ⊆ m.github_urls := by
  refine ⟨mergeBlocklists l r, rfl, ?_, ?_, ?_, ?_, ?_, ?_⟩ <;>
    intro x hx <;>
    simp only [mergeBlocklists, mem_jsSetDedup, List.mem_append] <;>
    [exact Or.inl hx; exact Or.inr hx; exact Or.inl hx; exact Or.inr hx;
     exact Or.inl hx; exact Or.inr hx]

/-- C2 (amended): rule compilation enforces no ceiling — for every
blocklist it produces exactly one rule per domain entry, also when
`domains.length` exceeds `MAX_RULES`; there is no failure path, so an
oversized set is handed to the platform instead of failing with a
`RuleLimitExceeded` error. -/
theorem claim_C2_no_limit_enforced (bl : Blocklist) :
    (compileRules bl).length = bl.domains.length :=
  compileRules_length bl

/-- C2 (counterexample): a blocklist with 30001 domains — one more than
the platform ceiling `MAX_RULES` — still compiles to 30001 rules; no
`RuleLimitExceeded` failure occurs. -/
theorem claim_C2_counterexample :
    (compileRules
        { keywords := [], domains := List.replicate 30001 "a.com",
          github_urls := [] }).length = 30001 ∧
      MAX_RULES < 30001 := by
  refine ⟨?_, by norm_num [MAX_RULES]⟩
  rw [compileRules_length, List.length_replicate]

/-- C3: for every blocklist whose `domains` field has at most 30000
entries, rule compilation produces exactly `domains.length` rules and the
rule ids are pairwise distinct. -/
theorem claim_C3_compile_exact (bl : Blocklist)
    (_h : bl.domains.length ≤ MAX_RULES) :
    (compileRules bl).length = bl.domains.length ∧
      ((compileRules bl).map (fun r => r.id)).Nodup :=
  ⟨compileRules_length bl, compileRules_ids_nodup bl⟩

/-- C3 (witness): the theorem instantiated at a concrete two-domain
blocklist. -/
theorem claim_C3_witness :
    (compileRules
        { keywords := [], domains := ["a.com", "b.com"], github_urls := [] }).length = 2 ∧
      ((compileRules
        { keywords := [], domains := ["a.com", "b.com"], github_urls := [] }).map
          (fun r => r.id)).Nodup := by
  simpa using
    claim_C3_compile_exact
      { keywords := [], domains := ["a.com", "b.com"], github_urls := [] }
      (by norm_num [MAX_RULES])

/-- C4 (counterexample): `checkUrlBlocked` with `domains = ["blocked.com"]`
evaluated at `https://sub.blocked.com/page` returns `none` — the normalized
host `sub.blocked.com` is tested for exact membership only, so the claimed
domain-type block decision for the subdomain is not produced. -/
theorem claim_C4_counterexample :
    checkUrlBlocked
        { keywords := [], domains := ["blocked.com"], github_urls := [] }
        "https://sub.blocked.com/page" = none := by
  decide

/-- C4 (amended): URL evaluation checks the normalized host (lowercased,
leading `www.` stripped) for exact membership in `domains` first and
short-circuits on a hit, returning a domain-type decision whose source is
the normalized host; subdomains of a listed domain are not matched, so
`https://sub.blocked.com/page` with `domains = ["blocked.com"]` yields no
decision, while `https://blocked.com/page` yields the domain-type decision
for `blocked.com`. -/
theorem claim_C4_exact_domain_match :
    (∀ (bl : Blocklist) (url : String),
      lowerStr (stripWww (hostOf url)) ∈ bl.domains →
      checkUrlBlocked bl url =
        some { blocked := true, btype := "domain",
               source := lowerStr (stripWww (hostOf url)),
               reason := "The domain \"" ++ lowerStr (stripWww (hostOf url)) ++
                 "\" is blocked" }) ∧
    checkUrlBlocked
        { keywords := [], domains := ["blocked.com"], github_urls := [] }
        "https://sub.blocked.com/page" = none ∧
    checkUrlBlocked
        { keywords := [], domains := ["blocked.com"], github_urls := [] }
        "https://blocked.com/page" =
      some { blocked := true, btype := "domain", source := "blocked.com",
             reason := "The domain \"blocked.com\" is blocked" } := by
  refine ⟨?_, by decide, by decide⟩
  intro bl url h
  simp only [checkUrlBlocked, if_pos h]

/-- C4 (witness): the amended theorem applied to a URL whose host carries a
`www.` prefix, with a keyword that also occurs in the URL — the domain
branch still decides first. -/
theorem claim_C4_witness :
    checkUrlBlocked
        { keywords := ["page"], domains := ["blocked.com"], github_urls := [] }
        "https://www.blocked.com/page" =
      some { blocked := true, btype := "domain", source := "blocked.com",
             reason := "The domain \"blocked.com\" is blocked" } :=
  claim_C4_exact_domain_match.1
    { keywords := ["page"], domains := ["blocked.com"], github_urls := [] }
    "https://www.blocked.com/page" (by decide)

/-- The blocklist with all-empty fields; starting point of the C5
scenario. -/
def emptyBlocklist : Blocklist :=
  { keywords := [], domains := [], github_urls := [] }

/-- C5 (counterexample): `addDomain("WWW.Example.COM/")` then
`addDomain("example.com")` on an empty blocklist leaves TWO domain entries,
`["www.example.com/", "example.com"]`, not the single entry
`["example.com"]` the claim states: the `www.`-stripping regex is
case-sensitive and runs before the lowercasing, and the trailing slash is
preserved. -/
theorem claim_C5_counterexample :
    (addDomain (addDomain emptyBlocklist "WWW.Example.COM/") "example.com").domains =
      ["www.example.com/", "example.com"] ∧
    (addDomain (addDomain emptyBlocklist "WWW.Example.COM/") "example.com").domains ≠
      ["example.com"] := by
  decide

/-- C5 (amended): `addDomain` normalizes its argument by stripping only a
lowercase scheme and lowercase `www.` prefix and then lowercasing the
remainder, and it never inserts a duplicate of an already-present
normalized entry (a duplicate-free `domains` list stays duplicate-free,
and the normalized form of the argument is present afterwards); because
the prefix strip precedes the lowercasing and a trailing slash survives,
the scenario of the claim produces the two entries
`["www.example.com/", "example.com"]`. -/
theorem claim_C5_normalized_insert :
    (∀ (bl : Blocklist) (d : String), bl.domains.Nodup →
      (addDomain bl d).domains.Nodup ∧
        normalizeDomain d ∈ (addDomain bl d).domains) ∧
    (addDomain (addDomain emptyBlocklist "WWW.Example.COM/") "example.com").domains =
      ["www.example.com/", "example.com"] := by
  refine ⟨?_, by decide⟩
  intro bl d h
  simp only [addDomain]
  by_cases hm : normalizeDomain d ∈ bl.domains
  · simp only [if_pos hm]
    exact ⟨h, hm⟩
  · simp only [if_neg hm]
    refine ⟨?_, by simp⟩
    simp [List.nodup_append, h, hm]

/-- C5 (witness): the amended theorem applied to a concrete blocklist and
argument. -/
theorem claim_C5_witness :
    (addDomain { keywords := [], domains := ["a.com"], github_urls := [] }
        "https://www.B.com").domains.Nodup ∧
      normalizeDomain "https://www.B.com" ∈
        (addDomain { keywords := [], domains := ["a.com"], github_urls := [] }
          "https://www.B.com").domains :=
  claim_C5_normalized_insert.1
    { keywords := [], domains := ["a.com"], github_urls := [] }
    "https://www.B.com" (by decide)

/-- C6 (counterexample): two blocklists that agree on every field except
the order of `domains` — the lists are permutations of each other — still
yield `hasChanges = true`, because the comparison is the order-sensitive
`JSON.stringify` equality, not the order-insensitive comparison the claim
states. (With the shipped `server_wins` strategy the merged result is the
remote record, so local and merged differ exactly by that list order.) -/
theorem claim_C6_counterexample :
    (resolveBlocklistConflicts CONFLICT_RESOLUTION
        (some { keywords := ["k"], domains := ["a.com", "b.com"], github_urls := [],
                is_active := true, updated_at := "2024-01-01" })
        (some { keywords := ["k"], domains := ["b.com", "a.com"], github_urls := [],
                is_active := true, updated_at := "2024-01-01" })).hasChanges = true ∧
    (resolveBlocklistConflicts CONFLICT_RESOLUTION
        (some { keywords := ["k"], domains := ["a.com", "b.com"], github_urls := [],
                is_active := true, updated_at := "2024-01-01" })
        (some { keywords := ["k"], domains := ["b.com", "a.com"], github_urls := [],
                is_active := true, updated_at := "2024-01-01" })).merged =
      some { keywords := ["k"], domains := ["b.com", "a.com"], github_urls := [],
             is_active := true, updated_at := "2024-01-01" } ∧
    List.Perm ["a.com", "b.com"] ["b.com", "a.com"] := by
  refine ⟨by decide, by decide, by decide⟩

/-- C6 (amended): for a merge of a present local and a present remote
blocklist (any strategy), `hasChanges` equals ORDER-SENSITIVE structural
inequality between the original local snapshot and the merged result — the
`JSON.stringify` comparison distinguishes permutations of the list fields,
so two blocklists whose list fields hold the same elements in different
orders compare as unequal and `hasChanges` is true. -/
theorem claim_C6_hasChanges_structural (strategy : String) (lb rb : Blocklist) :
    (resolveBlocklistConflicts strategy (some lb) (some rb)).hasChanges = true ↔
      some lb ≠ (resolveBlocklistConflicts strategy (some lb) (some rb)).merged := by
  simp [resolveBlocklistConflicts]

/-- C7: under strategy `merge` with both sides present (and
duplicate-free remote list fields, per the blocklist invariant),
`localChanges` is true iff for at least one field the local side
contributed an entry not already present in the remote (union strictly
larger than the remote field alone); in particular
`local = [x.com]`, `remote = [y.com]` gives merged domains
`[x.com, y.com]` and `localChanges = true`. -/
theorem claim_C7_merge_localChanges :
    (∀ lb rb : Blocklist,
      rb.keywords.Nodup → rb.domains.Nodup → rb.github_urls.Nodup →
      ((resolveBlocklistConflicts "merge" (some lb) (some rb)).localChanges = true ↔
        (∃ x ∈ lb.keywords, x ∉ rb.keywords) ∨
        (∃ x ∈ lb.domains, x ∉ rb.domains) ∨
        (∃ x ∈ lb.github_urls, x ∉ rb.github_urls))) ∧
    (resolveBlocklistConflicts "merge"
        (some { keywords := [], domains := ["x.com"], github_urls := [] })
        (some { keywords := [], domains := ["y.com"], github_urls := [] })).merged =
      some { keywords := [], domains := ["x.com", "y.com"], github_urls := [] } := by
  refine ⟨?_, by decide⟩
  intro lb rb hk hd hg
  have hlc : (resolveBlocklistConflicts "merge" (some lb) (some rb)).localChanges =
      (decide (rb.keywords.length < (jsSetDedup (lb.keywords ++ rb.keywords)).length) ||
       decide (rb.domains.length < (jsSetDedup (lb.domains ++ rb.domains)).length) ||
       decide (rb.github_urls.length <
         (jsSetDedup (lb.github_urls ++ rb.github_urls)).length)) := rfl
  rw [hlc]
  simp only [Bool.or_eq_true, decide_eq_true_eq]
  rw [length_dedup_append_lt_iff hk, length_dedup_append_lt_iff hd,
    length_dedup_append_lt_iff hg]
  exact or_assoc

/-- C7 (witness): the scenario of the claim — local `[x.com]` against
remote `[y.com]` — resolved through the main theorem's equivalence. -/
theorem claim_C7_witness :
    (resolveBlocklistConflicts "merge"
        (some { keywords := [], domains := ["x.com"], github_urls := [] })
        (some { keywords := [], domains := ["y.com"], github_urls := [] })).localChanges =
      true :=
  (claim_C7_merge_localChanges.1
      { keywords := [], domains := ["x.com"], github_urls := [] }
      { keywords := [], domains := ["y.com"], github_urls := [] }
      (by decide) (by decide) (by decide)).mpr
    (Or.inr (Or.inl ⟨"x.com", by decide, by decide⟩))

/-- C8: a `syncNow` call arriving while the in-progress flag is set
returns immediately with the "already in progress" outcome, leaves the
service state untouched and performs no effect at all — no user fetch, no
queue drain, no sub-sync, no retry scheduling. -/
theorem claim_C8_sync_in_progress (st : SyncState) (env : SyncEnv)
    (h : st.syncInProgress = true) :
    syncNow st env =
      ({ success := false, message := some "Sync already in progress",
         errors := none, errorMsg := none }, st, []) := by
  simp [syncNow, h]

/-- C8 (witness): the theorem instantiated at a concrete busy state and
environment. -/
theorem claim_C8_witness :
    syncNow { syncInProgress := true, lastSyncTime := some 7, retryCount := 1 }
        { isOnline := true, currentUser := some "user-1", queueThrows := false,
          blocklistOk := true, statsOk := true, settingsOk := true,
          devicesOk := true, now := 99 } =
      ({ success := false, message := some "Sync already in progress",
         errors := none, errorMsg := none },
       { syncInProgress := true, lastSyncTime := some 7, retryCount := 1 }, []) :=
  claim_C8_sync_in_progress _ _ rfl

/-- C9: a sync cycle in which exactly one of the four sub-syncs is
rejected while the rest are fulfilled still resolves with
`success = true` and `errors = 1`, records `lastSyncTime`, resets the
retry counter and schedules no retry — the backoff path is reserved for
an exception escaping the cycle body. -/
theorem claim_C9_partial_failure (st : SyncState) (env : SyncEnv)
    (h1 : st.syncInProgress = false) (h2 : env.isOnline = true)
    (h3 : env.currentUser.isSome = true) (h4 : env.queueThrows = false)
    (h5 : failedSubSyncs env = 1) :
    (syncNow st env).1.success = true ∧
    (syncNow st env).1.errors = some 1 ∧
    (syncNow st env).2.1.lastSyncTime = some env.now ∧
    (syncNow st env).2.1.retryCount = 0 ∧
    ∀ d, SyncEffect.scheduleRetry d ∉ (syncNow st env).2.2 := by
  obtain ⟨u, hu⟩ := Option.isSome_iff_exists.mp h3
  simp [syncNow, h1, h2, h4, h5, hu]

/-- C9 (witness): the theorem instantiated at a cycle whose stats sub-sync
is the one rejected sibling. -/
theorem claim_C9_witness :
    (syncNow { syncInProgress := false, lastSyncTime := none, retryCount := 2 }
        { isOnline := true, currentUser := some "user-1", queueThrows := false,
          blocklistOk := true, statsOk := false, settingsOk := true,
          devicesOk := true, now := 123 }).1.success = true ∧
    (syncNow { syncInProgress := false, lastSyncTime := none, retryCount := 2 }
        { isOnline := true, currentUser := some "user-1", queueThrows := false,
          blocklistOk := true, statsOk := false, settingsOk := true,
          devicesOk := true, now := 123 }).1.errors = some 1 ∧
    (syncNow { syncInProgress := false, lastSyncTime := none, retryCount := 2 }
        { isOnline := true, currentUser := some "user-1", queueThrows := false,
          blocklistOk := true, statsOk := false, settingsOk := true,
          devicesOk := true, now := 123 }).2.1.lastSyncTime = some 123 ∧
    (syncNow { syncInProgress := false, lastSyncTime := none, retryCount := 2 }
        { isOnline := true, currentUser := some "user-1", queueThrows := false,
          blocklistOk := true, statsOk := false, settingsOk := true,
          devicesOk := true, now := 123 }).2.1.retryCount = 0 ∧
    ∀ d, SyncEffect.scheduleRetry d ∉
      (syncNow { syncInProgress := false, lastSyncTime := none, retryCount := 2 }
        { isOnline := true, currentUser := some "user-1", queueThrows := false,
          blocklistOk := true, statsOk := false, settingsOk := true,
          devicesOk := true, now := 123 }).2.2 :=
  claim_C9_partial_failure _ _ rfl rfl rfl rfl (by decide)

/-- Fifteen pairwise distinct keywords — exactly the free-tier limit. -/
def fifteenKeywords : List String :=
  ["k0", "k1", "k2", "k3", "k4", "k5", "k6", "k7", "k8", "k9",
   "k10", "k11", "k12", "k13", "k14"]

/-- C10 (counterexample): a non-premium user whose blocklist already holds
15 keywords calls `addKeyword` with a keyword that is among them — the
call returns success (unchanged blocklist) instead of throwing, because
the duplicate check precedes the limit check; so "throws whenever the
blocklist already holds at least 15 keywords" is false as stated. -/
theorem claim_C10_counterexample :
    addKeyword (some { subscription_tier := some "free" })
        { keywords := fifteenKeywords, domains := [], github_urls := [] } "k0" =
      .ok { keywords := fifteenKeywords, domains := [], github_urls := [] } ∧
    isPremiumUser (some { subscription_tier := some "free" }) = false ∧
    fifteenKeywords.length = 15 :=
  ⟨rfl, rfl, rfl⟩

/-- C10 (amended): for a non-premium user, `addKeyword` throws exactly
when the keyword is not already present and the blocklist already holds at
least 15 keywords (the free-tier limit), leaving the keywords unchanged;
a keyword already present returns success without modification regardless
of the limit; for a premium user no limit is enforced — the call always
succeeds. -/
theorem claim_C10_keyword_limit (u : Option User) (bl : Blocklist) (kw : String) :
    (isPremiumUser u = false → kw ∉ bl.keywords → 15 ≤ bl.keywords.length →
      addKeyword u bl kw = .error
        "Free tier limited to 15 keywords. Upgrade to Premium for unlimited keywords.") ∧
    (kw ∈ bl.keywords → addKeyword u bl kw = .ok bl) ∧
    (isPremiumUser u = true →
      addKeyword u bl kw = .ok bl ∨
      addKeyword u bl kw = .ok { bl with keywords := bl.keywords ++ [kw] }) := by
  refine ⟨?_, ?_, ?_⟩
  · intro hp hmem hlen
    have hlim : keywordLimit u = FREE_KEYWORD_LIMIT := by
      simp [keywordLimit, hp]
    simp only [addKeyword, if_neg hmem, hlim, FREE_KEYWORD_LIMIT]
    rw [if_pos]
    exact ⟨by norm_num, by exact_mod_cast hlen⟩
  · intro hmem
    simp [addKeyword, hmem]
  · intro hp
    by_cases hmem : kw ∈ bl.keywords
    · exact Or.inl (by simp [addKeyword, hmem])
    · refine Or.inr ?_
      have hlim : keywordLimit u = -1 := by simp [keywordLimit, hp]
      simp only [addKeyword, if_neg hmem, hlim]
      rw [if_neg]
      intro hc
      exact absurd hc.1 (by norm_num)

/-- C10 (witness): the amended theorem applied to a full free-tier
blocklist with a fresh keyword (throws) — discharging every hypothesis at
a concrete input. -/
theorem claim_C10_witness :
    addKeyword (some { subscription_tier := some "free" })
        { keywords := fifteenKeywords, domains := [], github_urls := [] } "fresh" =
      .error
        "Free tier limited to 15 keywords. Upgrade to Premium for unlimited keywords." :=
  (claim_C10_keyword_limit (some { subscription_tier := some "free" })
      { keywords := fifteenKeywords, domains := [], github_urls := [] } "fresh").1
    rfl (by decide) (by decide)

end Fokus
